import Mathlib

/-
Verification of the strategic Monopoly AI core (board model, valuation engine,
decision engine) ported from src/integration/board_mapping.py and
src/integration/strategic_ai.py.

Embedding conventions:
  - Python dicts become association lists with a first-match lookup
    (association-list lookup mirrors dict.get with a default value);
  - Python sets of positions become Finset Nat (sums over them are
    order-independent, and set iteration order never affects a decision);
  - the houses dict becomes an association list Nat x Nat with a
    lookup defaulting to 0, mirroring houses.get(pos, 0);
  - every float constant of the source has at most four decimals, so float
    arithmetic is embedded exactly in fixed point: quality multipliers and
    the quality/debt/premium ratios are integers in hundredths (0.85 -> 85,
    1.40 -> 140, 0.05 -> 5), landing probabilities are integers in
    ten-thousandths (0.0316 -> 316, default 0.025 -> 250); products
    compare by cross multiplication, so q1 > q2 * 1.40 is embedded as
    q1 * 100 > q2 * 140, which is exact;
  - Python's int() truncates toward zero: on the nonnegative bid ceilings it
    is Nat division by the scale, on the possibly negative net worth it is
    int_div_toward_zero below;
  - cash and bids are Int (cash may go negative transiently while a
    hypothetical trade or bid is evaluated).
-/

/-- Lookup in an association list by key, mirroring Python dict.get. -/
def alookup {β : Type} (l : List (ℕ × β)) (k : ℕ) : Option β :=
  (l.find? (fun kv => kv.1 == k)).map (fun kv => kv.2)

/-- Lookup in a string-keyed association list, mirroring Python dict.get. -/
def slookup {β : Type} (l : List (String × β)) (k : String) : Option β :=
  (l.find? (fun kv => kv.1 == k)).map (fun kv => kv.2)

/-- Python's int(a / b) for positive b: division truncating toward zero. -/
def int_div_toward_zero (a : ℤ) (b : ℕ) : ℤ :=
  if 0 ≤ a then ((a.toNat / b : ℕ) : ℤ) else -(((-a).toNat / b : ℕ) : ℤ)

/-- GROUP_QUALITY from board_mapping.py: empirically calibrated quality
multiplier per color group, in hundredths (brown 0.85 -> 85, ...). -/
def GROUP_QUALITY_LIST : List (String × ℕ) :=
  [("brown", 85), ("lightBlue", 95), ("pink", 95), ("orange", 100),
   ("red", 105), ("yellow", 120), ("green", 130), ("darkBlue", 115),
   ("railroad", 100), ("utility", 90)]

/-- GROUP_QUALITY dict lookup. -/
def GROUP_QUALITY (g : String) : Option ℕ := slookup GROUP_QUALITY_LIST g

/-- LANDING_PROBABILITIES from board_mapping.py (steady-state Markov), in
ten-thousandths (0.0316 -> 316, ...). -/
def LANDING_PROBABILITIES_LIST : List (ℕ × ℕ) :=
  [(24, 316), (0, 312), (21, 305), (25, 303), (10, 620),
   (5, 289), (15, 286), (35, 280)]

/-- LANDING_PROBABILITIES dict lookup. -/
def LANDING_PROBABILITIES (pos : ℕ) : Option ℕ := alookup LANDING_PROBABILITIES_LIST pos

/-- PROPERTY_PRICES from board_mapping.py: face value by position. -/
def PROPERTY_PRICES_LIST : List (ℕ × ℕ) :=
  [(1, 60), (3, 60),
   (6, 100), (8, 100), (9, 120),
   (11, 140), (13, 140), (14, 160),
   (16, 180), (18, 180), (19, 200),
   (21, 220), (23, 220), (24, 240),
   (26, 260), (27, 260), (29, 280),
   (31, 300), (32, 300), (34, 320),
   (37, 350), (39, 400),
   (5, 200), (15, 200), (25, 200), (35, 200),
   (12, 150), (28, 150)]

/-- PROPERTY_PRICES dict lookup. -/
def PROPERTY_PRICES (pos : ℕ) : Option ℕ := alookup PROPERTY_PRICES_LIST pos

/-- RENT_TABLE from board_mapping.py: 7-entry rent schedule by position. -/
def RENT_TABLE_LIST : List (ℕ × List ℕ) :=
  [(1, [2, 4, 10, 30, 90, 160, 250]),
   (3, [4, 8, 20, 60, 180, 320, 450]),
   (6, [6, 12, 30, 90, 270, 400, 550]),
   (8, [6, 12, 30, 90, 270, 400, 550]),
   (9, [8, 16, 40, 100, 300, 450, 600]),
   (11, [10, 20, 50, 150, 450, 625, 750]),
   (13, [10, 20, 50, 150, 450, 625, 750]),
   (14, [12, 24, 60, 180, 500, 700, 900]),
   (16, [14, 28, 70, 200, 550, 750, 950]),
   (18, [14, 28, 70, 200, 550, 750, 950]),
   (19, [16, 32, 80, 220, 600, 800, 1000]),
   (21, [18, 36, 90, 250, 700, 875, 1050]),
   (23, [18, 36, 90, 250, 700, 875, 1050]),
   (24, [20, 40, 100, 300, 750, 925, 1100]),
   (26, [22, 44, 110, 330, 800, 975, 1150]),
   (27, [22, 44, 110, 330, 800, 975, 1150]),
   (29, [24, 48, 120, 360, 850, 1025, 1200]),
   (31, [26, 52, 130, 390, 900, 1100, 1275]),
   (32, [26, 52, 130, 390, 900, 1100, 1275]),
   (34, [28, 56, 150, 450, 1000, 1200, 1400]),
   (37, [35, 70, 175, 500, 1100, 1300, 1500]),
   (39, [50, 100, 200, 600, 1400, 1700, 2000])]

/-- RENT_TABLE dict lookup. -/
def RENT_TABLE (pos : ℕ) : Option (List ℕ) := alookup RENT_TABLE_LIST pos

/-- POSITION_TO_GROUP from board_mapping.py. -/
def POSITION_TO_GROUP_LIST : List (ℕ × String) :=
  [(1, "brown"), (3, "brown"),
   (6, "lightBlue"), (8, "lightBlue"), (9, "lightBlue"),
   (11, "pink"), (13, "pink"), (14, "pink"),
   (16, "orange"), (18, "orange"), (19, "orange"),
   (21, "red"), (23, "red"), (24, "red"),
   (26, "yellow"), (27, "yellow"), (29, "yellow"),
   (31, "green"), (32, "green"), (34, "green"),
   (37, "darkBlue"), (39, "darkBlue"),
   (5, "railroad"), (15, "railroad"), (25, "railroad"), (35, "railroad"),
   (12, "utility"), (28, "utility")]

/-- POSITION_TO_GROUP dict lookup (None for non-property squares). -/
def POSITION_TO_GROUP (pos : ℕ) : Option String := alookup POSITION_TO_GROUP_LIST pos

/-- GROUP_PROPERTIES from board_mapping.py: member positions per group. -/
def GROUP_PROPERTIES_LIST : List (String × List ℕ) :=
  [("brown", [1, 3]),
   ("lightBlue", [6, 8, 9]),
   ("pink", [11, 13, 14]),
   ("orange", [16, 18, 19]),
   ("red", [21, 23, 24]),
   ("yellow", [26, 27, 29]),
   ("green", [31, 32, 34]),
   ("darkBlue", [37, 39]),
   ("railroad", [5, 15, 25, 35]),
   ("utility", [12, 28])]

/-- GROUP_PROPERTIES dict lookup. -/
def GROUP_PROPERTIES (g : String) : Option (List ℕ) := slookup GROUP_PROPERTIES_LIST g

/-- Iteration order of GROUP_PROPERTIES.items() (CPython dicts preserve
insertion order). -/
def GROUP_LIST : List String :=
  ["brown", "lightBlue", "pink", "orange", "red", "yellow", "green",
   "darkBlue", "railroad", "utility"]

/-- HOUSE_COST from board_mapping.py. -/
def HOUSE_COST_LIST : List (String × ℕ) :=
  [("brown", 50), ("lightBlue", 50), ("pink", 100), ("orange", 100),
   ("red", 150), ("yellow", 150), ("green", 200), ("darkBlue", 200)]

/-- HOUSE_COST dict lookup. -/
def HOUSE_COST (g : String) : Option ℕ := slookup HOUSE_COST_LIST g

/-- BoardMapper.get_group_properties: member positions of a group, the empty
list for an unknown group id or the Python None group. -/
def get_group_properties (group : Option String) : List ℕ :=
  match group with
  | none => []
  | some g => (GROUP_PROPERTIES g).getD []

/-- BoardMapper.has_monopoly: the owner holds every member of the group
(vacuously true when the group has no tabulated members). -/
def has_monopoly (owned : Finset ℕ) (group : Option String) : Bool :=
  (get_group_properties group).all (fun pos => decide (pos ∈ owned))

/-- PropertyInfo.rents: rent schedule, [0]*7 for an untabulated position. -/
def property_rents (pos : ℕ) : List ℕ :=
  (RENT_TABLE pos).getD (List.replicate 7 0)

/-- PropertyInfo.get_rent: rent at a development level, clamped to the last
schedule entry at or beyond the schedule length. -/
def get_rent (pos level : ℕ) : ℕ :=
  let r := property_rents pos
  if level < r.length then r.getD level 0 else (r.getLast?).getD 0

/-- PropertyInfo.get_landing_probability with its 0.025 default,
in ten-thousandths. -/
def get_landing_probability (pos : ℕ) : ℕ :=
  (LANDING_PROBABILITIES pos).getD 250

/-- PlayerState from strategic_ai.py. -/
structure PlayerState where
  player_id : String
  cash : ℤ
  properties : Finset ℕ
  position : ℕ
  in_jail : Bool
  mortgaged : Finset ℕ
  houses : List (ℕ × ℕ)
deriving DecidableEq

/-- player.houses.get(pos, 0). -/
def getHouses (p : PlayerState) (pos : ℕ) : ℕ :=
  (alookup p.houses pos).getD 0

/-- GameState from strategic_ai.py. -/
structure GameState where
  my_state : PlayerState
  opponents : List PlayerState
  current_turn : String
  turn_number : ℕ
  available_houses : ℕ
  available_hotels : ℕ
deriving DecidableEq

/-- TradeOffer from strategic_ai.py. -/
structure TradeOffer where
  from_player : String
  to_player : String
  properties_offered : Finset ℕ
  properties_requested : Finset ℕ
  cash_offered : ℤ
  cash_requested : ℤ
deriving DecidableEq

/-- The tunable parameters set in StrategicAI.__init__, with the ratio
fields in hundredths: base_bid_premium 0.05 -> 5, max_debt_ratio 0.15 -> 15,
min_quality_ratio 0.85 -> 85, max_quality_ratio 1.40 -> 140. -/
structure StrategicAI where
  base_bid_premium_pct : ℕ
  max_debt_pct : ℕ
  max_absolute_debt : ℤ
  absolute_min_cash : ℤ
  smart_blocking : Bool
  min_quality_pct : ℕ
  max_quality_pct : ℕ
deriving DecidableEq

/-- The default parameter values from StrategicAI.__init__. -/
def defaultAI : StrategicAI :=
  ⟨5, 15, 400, 75, true, 85, 140⟩

/-- The net-worth contribution of one owned position
(StrategicAI.calculate_net_worth loop body). -/
def worth_of (player : PlayerState) (pos : ℕ) : ℤ :=
  let price : ℕ := (PROPERTY_PRICES pos).getD 0
  if pos ∈ player.mortgaged then ((price / 2 : ℕ) : ℤ)
  else
    (price : ℤ) +
      (match POSITION_TO_GROUP pos with
       | some g =>
           if getHouses player pos > 0 then
             (((getHouses player pos) * ((HOUSE_COST g).getD 100) : ℕ) : ℤ)
           else 0
       | none => 0)

/-- StrategicAI.calculate_net_worth. -/
def calculate_net_worth (player : PlayerState) : ℤ :=
  player.cash + player.properties.sum (fun pos => worth_of player pos)

/-- BoardMapper.calculate_ept: expected property earnings per turn, in
ten-thousandths; positions without a price entry are skipped, the
development level is 1 exactly when the owner holds the full group. -/
def calculate_ept (owned : Finset ℕ) (num_opponents : ℕ) : ℕ :=
  owned.sum (fun pos =>
    if (PROPERTY_PRICES pos).isSome then
      get_landing_probability pos *
        (get_rent pos (if has_monopoly owned (POSITION_TO_GROUP pos) then 1 else 0)) *
        num_opponents
    else 0)

/-- StrategicAI.get_monopoly_quality: sum (in hundredths) of quality
multipliers of the groups fully contained in the property set (unknown
groups would default to 1.0 -> 100). -/
def get_monopoly_quality (properties : Finset ℕ) : ℕ :=
  (GROUP_LIST.map (fun group =>
    if ((GROUP_PROPERTIES group).getD []).all (fun pos => decide (pos ∈ properties))
    then (GROUP_QUALITY group).getD 100 else 0)).sum

/-- The count of opponents other than opp that could also block the group
(the other_blockers generator expression in should_buy_property and
get_auction_bid). -/
def other_blockers (opponents : List PlayerState) (opp : PlayerState)
    (position : ℕ) (group : Option String) : ℕ :=
  (opponents.filter (fun o =>
    !(decide (o = opp)) && !(decide (position ∈ o.properties)) &&
      (get_group_properties group).any (fun p => decide (p ∈ o.properties)))).length

/-- StrategicAI.should_buy_property. -/
def should_buy_property (ai : StrategicAI) (state : GameState)
    (position : ℕ) (price : ℤ) : Bool :=
  let player := state.my_state
  if player.cash - price < ai.absolute_min_cash then false
  else
    match POSITION_TO_GROUP position with
    | none => true
    | some group =>
      if has_monopoly (insert position player.properties) (some group) then true
      else if state.opponents.any (fun opp =>
          has_monopoly (insert position opp.properties) (some group) &&
            (!ai.smart_blocking ||
              other_blockers state.opponents opp position (some group) == 0))
      then true
      else decide (player.cash - price ≥ ai.absolute_min_cash + 100)

/-- Outstanding mortgage debt: sum of half face value over mortgaged
positions (the current_debt line of get_auction_bid). -/
def mortgage_debt (player : PlayerState) : ℤ :=
  player.mortgaged.sum (fun p => ((((PROPERTY_PRICES p).getD 0) / 2 : ℕ) : ℤ))

/-- The auction bid ceiling of get_auction_bid as a function of the face
price and of which premium multipliers fire: base ceiling
int(price * (1 + premium)), then int(* 1.5) for own monopoly completion,
then int(* 1.3) for blocking, finally clamped by the debt constraint:
min(ceiling, cash + (min(maxDebt, int(netWorth * debtRatio)) - debt) - reserve). -/
def auction_ceiling (ai : StrategicAI) (player : PlayerState) (price : ℕ)
    (own block : Bool) : ℤ :=
  let m0 := price * (100 + ai.base_bid_premium_pct) / 100
  let m1 := if own then m0 * 15 / 10 else m0
  let m2 := if block then m1 * 13 / 10 else m1
  let max_debt := min ai.max_absolute_debt
    (int_div_toward_zero (calculate_net_worth player * ai.max_debt_pct) 100)
  min (m2 : ℤ) (player.cash + (max_debt - mortgage_debt player) - ai.absolute_min_cash)

/-- The monopoly-completion test of get_auction_bid:
`if group and self.board.has_monopoly(props_after, group)`. -/
def auction_own_monopoly (state : GameState) (position : ℕ) : Bool :=
  (POSITION_TO_GROUP position).isSome &&
    has_monopoly (insert position state.my_state.properties) (POSITION_TO_GROUP position)

/-- The blocking test of get_auction_bid: the loop breaks at the first
opponent whose holdings plus the position complete the group, and the 1.3
multiplier fires only if for that opponent the bidder is the sole blocker
(or smart blocking is off). -/
def auction_block (ai : StrategicAI) (state : GameState) (position : ℕ) : Bool :=
  match state.opponents.find? (fun opp =>
      has_monopoly (insert position opp.properties) (POSITION_TO_GROUP position)) with
  | some opp =>
      !ai.smart_blocking ||
        other_blockers state.opponents opp position (POSITION_TO_GROUP position) == 0
  | none => false

/-- The clamped maximum bid computed by StrategicAI.get_auction_bid. -/
def auction_max_bid (ai : StrategicAI) (state : GameState) (position : ℕ) : ℤ :=
  auction_ceiling ai state.my_state ((PROPERTY_PRICES position).getD 100)
    (auction_own_monopoly state position) (auction_block ai state position)

/-- StrategicAI.get_auction_bid: pass (0) unless the ceiling beats the
current bid, else bid current + 10 capped at the ceiling. -/
def get_auction_bid (ai : StrategicAI) (state : GameState) (position : ℕ)
    (current_bid : ℤ) : ℤ :=
  let max_bid := auction_max_bid ai state position
  if max_bid ≤ current_bid then 0
  else min (current_bid + 10) max_bid

/-- The trade-quality filter block of StrategicAI.evaluate_trade
(the lines after the EPT fallback): reject on a disproportionate quality
ratio, accept on a comparable one, demand cash when only the proposer gains
a monopoly, otherwise default-accept. Qualities are in hundredths and the
ratio comparisons are cross-multiplied: q2 > q1 * 1.40 is
q2 * 100 > q1 * 140. -/
def trade_quality_filter (ai : StrategicAI) (our_q their_q : ℕ)
    (we_gain they_gain : Bool) (net_cash : ℤ) : Bool :=
  if their_q * 100 > our_q * ai.max_quality_pct then false
  else if our_q * 100 ≥ their_q * ai.min_quality_pct then true
  else if they_gain && !we_gain then decide (net_cash > 200)
  else true

/-- StrategicAI.evaluate_trade. -/
def evaluate_trade (ai : StrategicAI) (state : GameState) (offer : TradeOffer) : Bool :=
  let player := state.my_state
  let my_props_after := (player.properties \ offer.properties_requested) ∪ offer.properties_offered
  let my_cash_after := player.cash + offer.cash_offered - offer.cash_requested
  if my_cash_after < ai.absolute_min_cash then false
  else
    match state.opponents.find? (fun opp => opp.player_id == offer.from_player) with
    | none => false
    | some proposer =>
      let their_props_after := (proposer.properties \ offer.properties_offered) ∪ offer.properties_requested
      let our_quality := get_monopoly_quality my_props_after
      let their_quality := get_monopoly_quality their_props_after
      let we_gain := decide (our_quality > get_monopoly_quality player.properties)
      let they_gain := decide (their_quality > get_monopoly_quality proposer.properties)
      let net_cash := offer.cash_offered - offer.cash_requested
      if !we_gain && !they_gain then
        let ept_before := calculate_ept player.properties state.opponents.length
        let ept_after := calculate_ept my_props_after state.opponents.length
        decide (ept_after > ept_before) ||
          (decide (ept_after = ept_before) && decide (net_cash > 0))
      else trade_quality_filter ai our_quality their_quality we_gain they_gain net_cash

/-- The mirror of a trade offer: offered/requested properties and cash
swapped, proposer and recipient swapped (the reverse_offer built inside
generate_trade_offers). -/
def mirror_offer (o : TradeOffer) : TradeOffer :=
  ⟨o.to_player, o.from_player, o.properties_requested, o.properties_offered,
   o.cash_requested, o.cash_offered⟩

/-- The single candidate offer built in the innermost loop body of
StrategicAI.generate_trade_offers: a 1-for-1 swap of tn0 (ours) for
needed_pos (theirs), the face-price difference balanced in cash, emitted
only if the mirrored offer passes evaluate_trade. -/
def trade_offer_candidate (ai : StrategicAI) (state : GameState)
    (needed_pos : ℕ) (opp : PlayerState) (tn0 : ℕ) : List TradeOffer :=
  let player := state.my_state
  let diff : ℤ := (((PROPERTY_PRICES needed_pos).getD 0 : ℕ) : ℤ) -
    (((PROPERTY_PRICES tn0).getD 0 : ℕ) : ℤ)
  let offer : TradeOffer :=
    ⟨player.player_id, opp.player_id, {tn0}, {needed_pos},
     if diff > 0 then diff else 0, if diff > 0 then 0 else -diff⟩
  if evaluate_trade ai state (mirror_offer offer) then [offer] else []

/-- StrategicAI.generate_trade_offers. -/
def generate_trade_offers (ai : StrategicAI) (state : GameState) : List TradeOffer :=
  let player := state.my_state
  GROUP_LIST.flatMap (fun group =>
    let positions := (GROUP_PROPERTIES group).getD []
    let owned_in_group := positions.filter (fun p => decide (p ∈ player.properties))
    let needed := positions.filter (fun p => decide (p ∉ player.properties))
    if owned_in_group.length = 0 ∨ needed.length = 0 then []
    else needed.flatMap (fun needed_pos =>
      state.opponents.flatMap (fun opp =>
        if needed_pos ∈ opp.properties then
          GROUP_LIST.flatMap (fun their_group =>
            let their_positions := (GROUP_PROPERTIES their_group).getD []
            let their_owned := their_positions.filter (fun p => decide (p ∈ opp.properties))
            let their_needed := their_positions.filter (fun p => decide (p ∈ player.properties))
            if their_owned.length > 0 ∧ their_needed.length > 0 then
              match their_needed with
              | [] => []
              | tn0 :: _ => trade_offer_candidate ai state needed_pos opp tn0
            else [])
        else [])))

/-- StrategicAI.should_build_house. -/
def should_build_house (ai : StrategicAI) (state : GameState) (position : ℕ) : Bool :=
  let player := state.my_state
  match POSITION_TO_GROUP position with
  | none => false
  | some group =>
    if group = "railroad" ∨ group = "utility" then false
    else if !has_monopoly player.properties (some group) then false
    else if state.available_houses = 0 then false
    else if player.cash - (((HOUSE_COST group).getD 100 : ℕ) : ℤ) < ai.absolute_min_cash + 50 then false
    else
      let houses_in_group := ((GROUP_PROPERTIES group).getD []).map (fun p => getHouses player p)
      let current_houses := getHouses player position
      if current_houses > (houses_in_group.min?).getD 0 then false
      else if current_houses ≥ 4 then false
      else true

/-- The ROI-ordered group list of StrategicAI.get_building_priority. -/
def priority_groups : List String :=
  ["orange", "red", "darkBlue", "yellow", "green", "pink", "lightBlue", "brown"]

/-- StrategicAI.get_building_priority. -/
def get_building_priority (ai : StrategicAI) (state : GameState) : List ℕ :=
  priority_groups.flatMap (fun group =>
    if !has_monopoly state.my_state.properties (some group) then []
    else ((GROUP_PROPERTIES group).getD []).filter
      (fun pos => should_build_house ai state pos))

/-- A candidate entry of StrategicAI.get_mortgage_decision (the dict with
keys position, value, has_monopoly, group_quality; quality in hundredths,
with the source's 0 for a position without a group). -/
structure MortgageCand where
  position : ℕ
  value : ℤ
  mono : Option Bool
  quality : ℕ
deriving DecidableEq

/-- Rank of a sort key's first component among comparable keys: a None key
ranks only against other None keys (identically), False before True. A None
key never ranks against a bool key in the source — that comparison raises,
which get_mortgage_decision below models — so the cross-class values of
this rank are never exercised by it. -/
def monoRank : Option Bool → ℕ
  | none => 0
  | some false => 1
  | some true => 2

/-- The sort key comparison of get_mortgage_decision on comparable keys:
ascending by the pair (has_monopoly, group_quality), False before True,
None keys tied among themselves (their group_quality annotation is 0). -/
def candLE (a b : MortgageCand) : Bool :=
  decide (monoRank a.mono < monoRank b.mono) ||
    (monoRank a.mono == monoRank b.mono && decide (a.quality ≤ b.quality))

/-- The mortgageable candidate list of get_mortgage_decision: every owned,
unmortgaged, house-free position, annotated with half-price mortgage value,
the `group and has_monopoly(...)` entry (Python None — modeled as
Option.none — when the position has no group, a bool otherwise) and group
quality. Set iteration is modeled as ascending position order. -/
def mortgage_candidates (player : PlayerState) : List MortgageCand :=
  ((player.properties.sort (· ≤ ·)).filter (fun pos =>
      !(decide (pos ∈ player.mortgaged)) && getHouses player pos == 0)).map
    (fun pos =>
      let group := POSITION_TO_GROUP pos
      ⟨pos, ((((PROPERTY_PRICES pos).getD 0) / 2 : ℕ) : ℤ),
        (match group with
         | some g => some (has_monopoly player.properties (some g))
         | none => none),
        (match group with
         | some g => (GROUP_QUALITY g).getD 100
         | none => 0)⟩)

/-- The source sorts the candidates by the key pair
(has_monopoly, group_quality); in Python 3, comparing a key whose first
component is None against one whose first component is a bool raises
TypeError, which happens exactly when both key classes occur among the
candidates. -/
def mortgage_sort_raises (cands : List MortgageCand) : Bool :=
  cands.any (fun c => c.mono == none) && cands.any (fun c => !(c.mono == none))

/-- The greedy selection loop of get_mortgage_decision: walk the sorted
candidates, stop as soon as the accumulated value reaches the target. -/
def mortgage_greedy : List MortgageCand → ℤ → ℤ → List MortgageCand
  | [], _, _ => []
  | c :: rest, raised, need =>
      if raised ≥ need then []
      else c :: mortgage_greedy rest (raised + c.value) need

/-- StrategicAI.get_mortgage_decision; none models the TypeError the sort
raises on mixed None/bool keys, otherwise the sorted greedy selection is
returned. -/
def get_mortgage_decision (state : GameState) (amount_needed : ℤ) :
    Option (List ℕ) :=
  let cands := mortgage_candidates state.my_state
  if mortgage_sort_raises cands then none
  else some ((mortgage_greedy (cands.mergeSort candLE) 0 amount_needed).map
    (fun c => c.position))

/-
Theorems. Helper lemmas first, then one theorem (plus witness or
counterexample) per claim.
-/

/-- Member positions of a group as a finite set. -/
def group_finset (g : String) : Finset ℕ :=
  ((GROUP_PROPERTIES g).getD []).toFinset

/-- No group's member set is contained in a different group's member set. -/
theorem groups_not_subset :
    ∀ g ∈ GROUP_LIST, ∀ h ∈ GROUP_LIST, g ≠ h →
      ¬ group_finset g ⊆ group_finset h := by decide

/-- C5: monopoly quality (in hundredths) is additive over two different
complete groups' disjoint property sets, the empty set has quality zero, a
proper subset of a single group's member set has quality zero, and the
calibration values hold: brown = 85 (0.85), green = 130 (1.30), both
together = 215 (2.15). -/
theorem monopoly_quality_additive :
    (∀ g1 ∈ GROUP_LIST, ∀ g2 ∈ GROUP_LIST, g1 ≠ g2 →
        Disjoint (group_finset g1) (group_finset g2) →
        get_monopoly_quality (group_finset g1 ∪ group_finset g2) =
          get_monopoly_quality (group_finset g1) + get_monopoly_quality (group_finset g2)) ∧
    get_monopoly_quality (∅ : Finset ℕ) = 0 ∧
    (∀ g ∈ GROUP_LIST, ∀ S : Finset ℕ, S ⊆ group_finset g → S ≠ group_finset g →
        get_monopoly_quality S = 0) ∧
    get_monopoly_quality {1, 3} = 85 ∧
    get_monopoly_quality {31, 32, 34} = 130 ∧
    get_monopoly_quality ({1, 3} ∪ {31, 32, 34} : Finset ℕ) = 215 := by
  refine ⟨by decide, by decide, ?_, by decide, by decide, by decide⟩
  intro g hg S hsub hne
  unfold get_monopoly_quality
  apply List.sum_eq_zero
  intro x hx
  rw [List.mem_map] at hx
  obtain ⟨h, hh, rfl⟩ := hx
  by_cases hc : ((GROUP_PROPERTIES h).getD []).all (fun pos => decide (pos ∈ S)) = true
  · exfalso
    have hsub2 : group_finset h ⊆ S := by
      intro q hq
      rw [group_finset, List.mem_toFinset] at hq
      exact of_decide_eq_true (List.all_eq_true.mp hc q hq)
    by_cases hgh : h = g
    · subst hgh
      exact hne (Finset.Subset.antisymm hsub hsub2)
    · exact groups_not_subset h hh g hg hgh (hsub2.trans hsub)
  · simp [hc]

/-- C5 witness: additivity instantiated at the brown and green groups. -/
theorem monopoly_quality_additive_example :
    get_monopoly_quality (group_finset ("brown") ∪ group_finset ("green")) =
      get_monopoly_quality (group_finset ("brown")) +
        get_monopoly_quality (group_finset ("green")) :=
  monopoly_quality_additive.1 ("brown") (by decide) ("green") (by decide)
    (by decide) (by decide)

/-- C10: has_monopoly is vacuously true for any group identifier that is not
a key of GROUP_PROPERTIES (including the None group of untabulated
positions), because the membership lookup defaults to the empty list; hence
in get_auction_bid's blocking scan, the very first opponent is deemed to
complete a monopoly at a position with no group. -/
theorem has_monopoly_unknown_group_vacuous :
    (∀ (S : Finset ℕ) (g : Option String),
        (∀ s, g = some s → GROUP_PROPERTIES s = none) → has_monopoly S g = true) ∧
    (∀ (state : GameState) (position : ℕ), POSITION_TO_GROUP position = none →
        state.opponents ≠ [] →
        state.opponents.find? (fun opp =>
            has_monopoly (insert position opp.properties) (POSITION_TO_GROUP position)) =
          state.opponents.head?) := by
  constructor
  · intro S g hg
    match g with
    | none => rfl
    | some s =>
        simp only [has_monopoly, get_group_properties]
        rw [hg s rfl]
        rfl
  · intro state position hg hne
    match hstate : state.opponents with
    | [] => exact absurd hstate hne
    | o :: rest =>
        rw [List.find?_cons_of_pos, List.head?_cons]
        rw [hg]
        rfl

/-- The Bool blocking condition scanned over opponents, as an existential. -/
theorem block_cond_iff (ai : StrategicAI) (opponents : List PlayerState)
    (position : ℕ) (g : Option String) :
    (opponents.any fun opp => has_monopoly (insert position opp.properties) g &&
        (!ai.smart_blocking || other_blockers opponents opp position g == 0)) = true ↔
    ∃ opp ∈ opponents, has_monopoly (insert position opp.properties) g = true ∧
      (ai.smart_blocking = true → other_blockers opponents opp position g = 0) := by
  rw [List.any_eq_true]
  constructor
  · rintro ⟨opp, hmem, hcond⟩
    rw [Bool.and_eq_true] at hcond
    refine ⟨opp, hmem, hcond.1, ?_⟩
    intro hs
    have h2 := hcond.2
    rw [hs] at h2
    simpa using h2
  · rintro ⟨opp, hmem, h1, h2⟩
    refine ⟨opp, hmem, ?_⟩
    rw [Bool.and_eq_true]
    refine ⟨h1, ?_⟩
    cases hs : ai.smart_blocking
    · simp
    · simp [h2 hs]

/-- C2: should_buy_property, for any configuration with the reserve at its
default 75, accepts exactly when the purchase keeps cash at the reserve and
one of the accepting branches fires: no group, own monopoly completion,
blocking (sole blocker under smart blocking, unconditional otherwise), or
the reserve-plus-100 comfort buffer; and the two calibration scenarios hold
(cash 500 owning 16 and 18 buys position 19 at 200, cash 100 does not). -/
theorem should_buy_property_branch_order :
    (∀ (ai : StrategicAI) (state : GameState) (position : ℕ) (price : ℤ),
      ai.absolute_min_cash = 75 →
      (should_buy_property ai state position price = true ↔
        state.my_state.cash - price ≥ 75 ∧
          (POSITION_TO_GROUP position = none ∨
            ∃ g, POSITION_TO_GROUP position = some g ∧
              (has_monopoly (insert position state.my_state.properties) (some g) = true ∨
                (∃ opp ∈ state.opponents,
                  has_monopoly (insert position opp.properties) (some g) = true ∧
                    (ai.smart_blocking = true →
                      other_blockers state.opponents opp position (some g) = 0)) ∨
                state.my_state.cash - price ≥ 175)))) ∧
    should_buy_property defaultAI
      ⟨⟨"me", 500, {16, 18}, 0, false, ∅, []⟩, [], "me", 0, 32, 12⟩ 19 200 = true ∧
    should_buy_property defaultAI
      ⟨⟨"me", 100, {16, 18}, 0, false, ∅, []⟩, [], "me", 0, 32, 12⟩ 19 200 = false := by
  refine ⟨?_, by decide, by decide⟩
  intro ai state position price hmin
  simp only [should_buy_property, hmin]
  by_cases h1 : state.my_state.cash - price < 75
  · rw [if_pos h1]
    simp only [Bool.false_eq_true, false_iff, not_and]
    intro h2
    omega
  · rw [if_neg h1]
    have h75 : state.my_state.cash - price ≥ 75 := by omega
    rcases hg : POSITION_TO_GROUP position with _ | g
    all_goals simp only [hg]
    · constructor
      · intro _
        exact ⟨h75, Or.inl trivial⟩
      · intro _
        trivial
    · by_cases h2 : has_monopoly (insert position state.my_state.properties) (some g) = true
      · rw [if_pos h2]
        constructor
        · intro _
          exact ⟨h75, Or.inr ⟨g, rfl, Or.inl h2⟩⟩
        · intro _
          rfl
      · rw [if_neg h2]
        by_cases h3 : (state.opponents.any fun opp =>
            has_monopoly (insert position opp.properties) (some g) &&
              (!ai.smart_blocking ||
                other_blockers state.opponents opp position (some g) == 0)) = true
        · rw [if_pos h3]
          rw [block_cond_iff] at h3
          constructor
          · intro _
            exact ⟨h75, Or.inr ⟨g, rfl, Or.inr (Or.inl h3)⟩⟩
          · intro _
            rfl
        · rw [if_neg h3]
          constructor
          · intro hd
            rw [decide_eq_true_eq] at hd
            refine ⟨h75, Or.inr ⟨g, rfl, Or.inr (Or.inr ?_)⟩⟩
            omega
          · rintro ⟨-, hcase⟩
            rcases hcase with hnone | ⟨g2, hg2, hin⟩
            · exact absurd hnone (by simp)
            · rw [Option.some.injEq] at hg2
              subst hg2
              rcases hin with hmono | hblock | hbuf
              · exact absurd hmono h2
              · exact absurd (block_cond_iff ai state.opponents position (some g) |>.mpr hblock) h3
              · rw [decide_eq_true_eq]
                omega

/-- C2 witness: the comfort-buffer branch accepting for a player owning
nothing with ample cash. -/
theorem should_buy_property_branch_order_example :
    should_buy_property defaultAI
      ⟨⟨"me", 1000, ∅, 0, false, ∅, []⟩, [], "me", 0, 32, 12⟩ 19 200 = true :=
  (should_buy_property_branch_order.1 defaultAI
      ⟨⟨"me", 1000, ∅, 0, false, ∅, []⟩, [], "me", 0, 32, 12⟩ 19 200 rfl).mpr
    ⟨by decide, Or.inr ⟨"orange", by decide, Or.inr (Or.inr (by decide))⟩⟩

/-- Every member of a priority group's table entry maps back to that group. -/
theorem priority_groups_consistent :
    ∀ g ∈ priority_groups, ∀ p ∈ (GROUP_PROPERTIES g).getD [],
      POSITION_TO_GROUP p = some g := by decide

/-- C6 counterexample: on a brown monopoly with four houses everywhere,
ample cash and full bank inventory, every condition of the claim holds —
in particular the house count 4 is below 5 — yet should_build_house
refuses to build. -/
theorem should_build_house_four_houses_refused :
    should_build_house defaultAI
      ⟨⟨"me", 1000, {1, 3}, 0, false, ∅, [(1, 4), (3, 4)]⟩, [], "me", 0, 32, 12⟩ 1 = false ∧
    POSITION_TO_GROUP 1 = some ("brown") ∧
    ("brown" ≠ "railroad" ∧ "brown" ≠ "utility") ∧
    has_monopoly {1, 3} (some ("brown")) = true ∧
    (32 : ℕ) ≠ 0 ∧
    (1000 : ℤ) - 50 ≥ 75 + 50 ∧
    getHouses ⟨"me", 1000, {1, 3}, 0, false, ∅, [(1, 4), (3, 4)]⟩ 1 = 4 ∧
    (((((GROUP_PROPERTIES ("brown")).getD []).map
        (fun p => getHouses ⟨"me", 1000, {1, 3}, 0, false, ∅, [(1, 4), (3, 4)]⟩ p)).min?).getD 0) = 4 ∧
    (4 : ℕ) < 5 := by decide

/-- C6 (amended: building is allowed only while the house count is below 4,
not 5 — the 4-house pre-hotel cap refuses a fifth house): should_build_house
is true exactly when the group exists and is developable, the player holds
the monopoly, the bank has houses, cash keeps reserve + 50 after the group's
house cost, the even-building rule holds and the house count is below 4;
and get_building_priority is exactly the buildable positions collected
group by group in the fixed ROI order. -/
theorem should_build_house_iff :
    ∀ (state : GameState) (position : ℕ),
      (should_build_house defaultAI state position = true ↔
        ∃ g, POSITION_TO_GROUP position = some g ∧
          ¬(g = "railroad" ∨ g = "utility") ∧
          has_monopoly state.my_state.properties (some g) = true ∧
          state.available_houses ≠ 0 ∧
          state.my_state.cash - (((HOUSE_COST g).getD 100 : ℕ) : ℤ) ≥ 125 ∧
          getHouses state.my_state position ≤
            (((((GROUP_PROPERTIES g).getD []).map
                (fun p => getHouses state.my_state p)).min?).getD 0) ∧
          getHouses state.my_state position < 4) ∧
      get_building_priority defaultAI state =
        priority_groups.flatMap (fun g =>
          ((GROUP_PROPERTIES g).getD []).filter
            (fun pos => should_build_house defaultAI state pos)) := by
  intro state position
  constructor
  · simp only [should_build_house]
    rcases hg : POSITION_TO_GROUP position with _ | g
    all_goals simp only [hg]
    · constructor
      · intro h
        exact absurd h (by simp)
      · rintro ⟨g, hgeq, -⟩
        exact absurd hgeq (by simp)
    · by_cases hc1 : g = "railroad" ∨ g = "utility"
      · rw [if_pos hc1]
        constructor
        · intro h
          exact absurd h (by simp)
        · rintro ⟨g2, hg2, hnd, -⟩
          rw [Option.some.injEq] at hg2
          subst hg2
          exact absurd hc1 hnd
      · rw [if_neg hc1]
        by_cases hm : has_monopoly state.my_state.properties (some g) = true
        · simp only [hm, Bool.not_true, Bool.false_eq_true, if_false]
          by_cases hh : state.available_houses = 0
          · rw [if_pos hh]
            constructor
            · intro h
              exact absurd h (by simp)
            · rintro ⟨g2, hg2, -, -, hne, -⟩
              rw [Option.some.injEq] at hg2
              subst hg2
              exact absurd hh hne
          · rw [if_neg hh]
            by_cases hcash : state.my_state.cash -
                (((HOUSE_COST g).getD 100 : ℕ) : ℤ) < defaultAI.absolute_min_cash + 50
            · rw [if_pos hcash]
              constructor
              · intro h
                exact absurd h (by simp)
              · rintro ⟨g2, hg2, -, -, -, hge, -⟩
                rw [Option.some.injEq] at hg2
                subst hg2
                have : defaultAI.absolute_min_cash = 75 := rfl
                omega
            · rw [if_neg hcash]
              by_cases heven : getHouses state.my_state position >
                  (((((GROUP_PROPERTIES g).getD []).map
                      (fun p => getHouses state.my_state p)).min?).getD 0)
              · rw [if_pos heven]
                constructor
                · intro h
                  exact absurd h (by simp)
                · rintro ⟨g2, hg2, -, -, -, -, hle, -⟩
                  rw [Option.some.injEq] at hg2
                  subst hg2
                  omega
              · rw [if_neg heven]
                by_cases hcap : getHouses state.my_state position ≥ 4
                · rw [if_pos hcap]
                  constructor
                  · intro h
                    exact absurd h (by simp)
                  · rintro ⟨g2, hg2, -, -, -, -, -, hlt⟩
                    rw [Option.some.injEq] at hg2
                    subst hg2
                    omega
                · rw [if_neg hcap]
                  constructor
                  · intro _
                    refine ⟨g, rfl, hc1, hm, hh, ?_, by omega, by omega⟩
                    have : defaultAI.absolute_min_cash = 75 := rfl
                    omega
                  · intro _
                    rfl
        · rw [Bool.not_eq_true] at hm
          simp only [hm, Bool.not_false, if_true]
          constructor
          · intro h
            exact absurd h (by simp)
          · rintro ⟨g2, hg2, -, hm2, -⟩
            rw [Option.some.injEq] at hg2
            subst hg2
            rw [hm] at hm2
            exact absurd hm2 (by simp)
  · unfold get_building_priority
    apply List.flatMap_congr
    intro g hgmem
    by_cases hm : has_monopoly state.my_state.properties (some g) = true
    · simp [hm]
    · rw [Bool.not_eq_true] at hm
      simp only [hm, Bool.not_false, if_true]
      symm
      rw [List.filter_eq_nil_iff]
      intro p hpmem
      have hp := priority_groups_consistent g hgmem p hpmem
      simp only [should_build_house, hp]
      by_cases hc1 : g = "railroad" ∨ g = "utility"
      · rw [if_pos hc1]
        simp
      · rw [if_neg hc1]
        simp [hm]

/-- The same game state with the acting player's cash replaced. -/
def setCash (state : GameState) (c : ℤ) : GameState :=
  ⟨⟨state.my_state.player_id, c, state.my_state.properties, state.my_state.position,
    state.my_state.in_jail, state.my_state.mortgaged, state.my_state.houses⟩,
   state.opponents, state.current_turn, state.turn_number,
   state.available_houses, state.available_hotels⟩

/-- C8: should_buy_property is monotone in the acting player's cash — an
accepted purchase stays accepted at any higher cash level, everything else
unchanged. -/
theorem should_buy_property_cash_monotone :
    ∀ (ai : StrategicAI) (state : GameState) (position : ℕ) (price c2 : ℤ),
      should_buy_property ai state position price = true →
      state.my_state.cash < c2 →
      should_buy_property ai (setCash state c2) position price = true := by
  intro ai state position price c2 hacc hlt
  simp only [should_buy_property, setCash] at hacc ⊢
  by_cases h1 : state.my_state.cash - price < ai.absolute_min_cash
  · rw [if_pos h1] at hacc
    exact absurd hacc (by simp)
  · rw [if_neg h1] at hacc
    rw [if_neg (show ¬(c2 - price < ai.absolute_min_cash) by omega)]
    rcases hg : POSITION_TO_GROUP position with _ | g
    all_goals simp only [hg] at hacc ⊢
    by_cases h2 : has_monopoly (insert position state.my_state.properties) (some g) = true
    · rw [if_pos h2]
    · rw [if_neg h2] at hacc ⊢
      by_cases h3 : (state.opponents.any fun opp =>
          has_monopoly (insert position opp.properties) (some g) &&
            (!ai.smart_blocking ||
              other_blockers state.opponents opp position (some g) == 0)) = true
      · rw [if_pos h3]
      · rw [if_neg h3] at hacc ⊢
        rw [decide_eq_true_eq] at hacc ⊢
        omega

/-- C8 witness: acceptance at cash 500 persists at cash 800. -/
theorem should_buy_property_cash_monotone_example :
    should_buy_property defaultAI
      (setCash ⟨⟨"me", 500, {16, 18}, 0, false, ∅, []⟩, [], "me", 0, 32, 12⟩ 800)
      19 200 = true :=
  should_buy_property_cash_monotone defaultAI
    ⟨⟨"me", 500, {16, 18}, 0, false, ∅, []⟩, [], "me", 0, 32, 12⟩ 19 200 800
    (by decide) (by decide)

/-- C7: with the premium and the monopoly/blocking multipliers held fixed,
the auction bid ceiling is monotonically non-decreasing in the contested
position's face price; and the bid get_auction_bid returns is either the
pass signal 0 or bounded by the clamped ceiling. -/
theorem auction_ceiling_monotone_bid_capped :
    (∀ (ai : StrategicAI) (player : PlayerState) (p1 p2 : ℕ) (own block : Bool),
      p1 ≤ p2 →
      auction_ceiling ai player p1 own block ≤ auction_ceiling ai player p2 own block) ∧
    (∀ (ai : StrategicAI) (state : GameState) (position : ℕ) (current_bid : ℤ),
      get_auction_bid ai state position current_bid = 0 ∨
      get_auction_bid ai state position current_bid ≤ auction_max_bid ai state position) := by
  constructor
  · intro ai player p1 p2 own block hp
    simp only [auction_ceiling]
    apply min_le_min _ le_rfl
    have step : ∀ (a b k d : ℕ), a ≤ b → a * k / d ≤ b * k / d :=
      fun a b k d h => Nat.div_le_div_right (Nat.mul_le_mul_right _ h)
    have h0 := step p1 p2 (100 + ai.base_bid_premium_pct) 100 hp
    have h1 : (if own then p1 * (100 + ai.base_bid_premium_pct) / 100 * 15 / 10
        else p1 * (100 + ai.base_bid_premium_pct) / 100) ≤
        (if own then p2 * (100 + ai.base_bid_premium_pct) / 100 * 15 / 10
        else p2 * (100 + ai.base_bid_premium_pct) / 100) := by
      cases own
      · simpa using h0
      · simpa using step _ _ 15 10 h0
    have h2 : (if block then (if own then p1 * (100 + ai.base_bid_premium_pct) / 100 * 15 / 10
        else p1 * (100 + ai.base_bid_premium_pct) / 100) * 13 / 10
        else (if own then p1 * (100 + ai.base_bid_premium_pct) / 100 * 15 / 10
        else p1 * (100 + ai.base_bid_premium_pct) / 100)) ≤
        (if block then (if own then p2 * (100 + ai.base_bid_premium_pct) / 100 * 15 / 10
        else p2 * (100 + ai.base_bid_premium_pct) / 100) * 13 / 10
        else (if own then p2 * (100 + ai.base_bid_premium_pct) / 100 * 15 / 10
        else p2 * (100 + ai.base_bid_premium_pct) / 100)) := by
      cases block
      · simpa using h1
      · simpa using step _ _ 13 10 h1
    exact_mod_cast h2
  · intro ai state position current_bid
    simp only [get_auction_bid]
    by_cases h : auction_max_bid ai state position ≤ current_bid
    · left
      rw [if_pos h]
    · right
      rw [if_neg h]
      exact min_le_right _ _

/-- C7 witness: the ceiling at face price 100 is below the ceiling at face
price 200 for the calibration player. -/
theorem auction_ceiling_monotone_bid_capped_example :
    auction_ceiling defaultAI ⟨"me", 500, {16, 18}, 0, false, ∅, []⟩ 100 true false ≤
      auction_ceiling defaultAI ⟨"me", 500, {16, 18}, 0, false, ∅, []⟩ 200 true false :=
  auction_ceiling_monotone_bid_capped.1 defaultAI
    ⟨"me", 500, {16, 18}, 0, false, ∅, []⟩ 100 200 true false (by decide)

/-- has_monopoly over a real group id, as membership of all its members. -/
theorem has_monopoly_some_iff (owned : Finset ℕ) (g : String) :
    has_monopoly owned (some g) = true ↔
      ∀ q ∈ (GROUP_PROPERTIES g).getD [], q ∈ owned := by
  simp [has_monopoly, get_group_properties, List.all_eq_true]

/-- Every position's group has a member other than that position (all
groups have at least two members). -/
theorem pos_group_extra_member :
    ∀ (pos : ℕ) (g : String), POSITION_TO_GROUP pos = some g →
      ∃ q ∈ (GROUP_PROPERTIES g).getD [], q ≠ pos := by
  intro pos g h
  unfold POSITION_TO_GROUP alookup at h
  obtain ⟨kv, hfind, hsnd⟩ := Option.map_eq_some'.mp h
  have hmem := List.mem_of_find?_eq_some hfind
  have hkey : kv.1 = pos := by
    have hb := List.find?_some hfind
    simpa using hb
  have hfact : ∀ kv ∈ POSITION_TO_GROUP_LIST,
      ∃ q ∈ (GROUP_PROPERTIES kv.2).getD [], q ≠ kv.1 := by decide
  obtain ⟨q, hq1, hq2⟩ := hfact kv hmem
  refine ⟨q, ?_, ?_⟩
  · rw [← hsnd]
    exact hq1
  · rw [← hkey]
    exact hq2

/-- Under pairwise-disjoint ownership, the sequential blocking test of
get_auction_bid (first completing opponent found, then the sole-blocker
check) agrees with the claim's reading: the 1.3 multiplier fires only when
the bidder's own monopoly fails and some opponent both completes the group
and passes the sole-blocker test. -/
theorem auction_block_eq_any (ai : StrategicAI) (state : GameState) (position : ℕ)
    (hd : (state.my_state :: state.opponents).Pairwise
      (fun a b => Disjoint a.properties b.properties)) :
    auction_block ai state position =
      (!auction_own_monopoly state position &&
        state.opponents.any (fun opp =>
          has_monopoly (insert position opp.properties) (POSITION_TO_GROUP position) &&
            (!ai.smart_blocking ||
              other_blockers state.opponents opp position (POSITION_TO_GROUP position) == 0))) := by
  by_cases hown : auction_own_monopoly state position = true
  · rw [hown]
    simp only [Bool.not_true, Bool.false_and]
    unfold auction_block
    have hfind : state.opponents.find? (fun opp =>
        has_monopoly (insert position opp.properties) (POSITION_TO_GROUP position)) = none := by
      rw [List.find?_eq_none]
      intro opp hmem
      unfold auction_own_monopoly at hown
      rw [Bool.and_eq_true] at hown
      obtain ⟨hsome, hmono⟩ := hown
      rw [Option.isSome_iff_exists] at hsome
      obtain ⟨g, hg⟩ := hsome
      rw [hg] at hmono ⊢
      obtain ⟨q, hqmem, hqne⟩ := pos_group_extra_member position g hg
      intro hpred
      have hq1 : q ∈ insert position state.my_state.properties :=
        (has_monopoly_some_iff _ g).mp hmono q hqmem
      have hq2 : q ∈ state.my_state.properties := by
        rcases Finset.mem_insert.mp hq1 with h | h
        · exact absurd h hqne
        · exact h
      have hq3 : q ∈ opp.properties := by
        have hq4 : q ∈ insert position opp.properties :=
          (has_monopoly_some_iff _ g).mp hpred q hqmem
        rcases Finset.mem_insert.mp hq4 with h | h
        · exact absurd h hqne
        · exact h
      have hdisj : Disjoint state.my_state.properties opp.properties :=
        (List.pairwise_cons.mp hd).1 opp hmem
      exact absurd hq3 (Finset.disjoint_left.mp hdisj hq2)
    rw [hfind]
  · rw [Bool.not_eq_true] at hown
    rw [hown]
    simp only [Bool.not_false, Bool.true_and]
    unfold auction_block
    rcases hfind : state.opponents.find? (fun opp =>
        has_monopoly (insert position opp.properties) (POSITION_TO_GROUP position))
      with _ | opp0
    · simp only [hfind]
      have hall := List.find?_eq_none.mp hfind
      symm
      cases hany : state.opponents.any (fun opp =>
          has_monopoly (insert position opp.properties) (POSITION_TO_GROUP position) &&
            (!ai.smart_blocking ||
              other_blockers state.opponents opp position (POSITION_TO_GROUP position) == 0))
      · rfl
      · exfalso
        rw [List.any_eq_true] at hany
        obtain ⟨opp, hmem, hcond⟩ := hany
        rw [Bool.and_eq_true] at hcond
        exact (hall opp hmem) hcond.1
    · simp only [hfind]
      have hpred0 := List.find?_some hfind
      have hmem0 := List.mem_of_find?_eq_some hfind
      rcases hg : POSITION_TO_GROUP position with _ | g
      · rw [hg] at hpred0
        have hsole : ∀ opp, other_blockers state.opponents opp position none = 0 := by
          intro opp
          simp [other_blockers, get_group_properties]
        rw [hsole opp0]
        simp only [Nat.zero_eq, beq_self_eq_true, Bool.or_true]
        symm
        rw [List.any_eq_true]
        refine ⟨opp0, hmem0, ?_⟩
        rw [Bool.and_eq_true]
        refine ⟨hpred0, ?_⟩
        rw [hsole opp0]
        simp
      · rw [hg] at hpred0
        by_cases hsole0 : (!ai.smart_blocking ||
            other_blockers state.opponents opp0 position (some g) == 0) = true
        · rw [hsole0]
          symm
          rw [List.any_eq_true]
          refine ⟨opp0, hmem0, ?_⟩
          rw [Bool.and_eq_true]
          exact ⟨hpred0, hsole0⟩
        · rw [Bool.not_eq_true] at hsole0
          rw [hsole0]
          symm
          cases hany : state.opponents.any (fun opp =>
              has_monopoly (insert position opp.properties) (some g) &&
                (!ai.smart_blocking ||
                  other_blockers state.opponents opp position (some g) == 0))
          · rfl
          · exfalso
            rw [List.any_eq_true] at hany
            obtain ⟨opp, hmem, hcond⟩ := hany
            rw [Bool.and_eq_true] at hcond
            by_cases heq : opp = opp0
            · subst heq
              rw [hcond.2] at hsole0
              exact absurd hsole0 (by simp)
            · obtain ⟨q, hqmem, hqne⟩ := pos_group_extra_member position g hg
              have hq1 : q ∈ opp.properties := by
                have hq4 : q ∈ insert position opp.properties :=
                  (has_monopoly_some_iff _ g).mp hcond.1 q hqmem
                rcases Finset.mem_insert.mp hq4 with h | h
                · exact absurd h hqne
                · exact h
              have hq2 : q ∈ opp0.properties := by
                have hq4 : q ∈ insert position opp0.properties :=
                  (has_monopoly_some_iff _ g).mp hpred0 q hqmem
                rcases Finset.mem_insert.mp hq4 with h | h
                · exact absurd h hqne
                · exact h
              have hd2 : state.opponents.Pairwise
                  (fun a b => Disjoint a.properties b.properties) :=
                (List.pairwise_cons.mp hd).2
              have hdisj : Disjoint opp.properties opp0.properties :=
                hd2.forall (fun a b h => h.symm) hmem hmem0 heq
              exact absurd hq2 (Finset.disjoint_left.mp hdisj hq1)

/-- The auction bid as C3 words it: the 1.5 multiplier for own monopoly
completion, or otherwise the 1.3 multiplier when some opponent would
complete the group and the sole-blocker test passes; then the debt clamp,
the pass test against the current bid, and the increment capped at the
ceiling. -/
def get_auction_bid_claim (ai : StrategicAI) (state : GameState) (position : ℕ)
    (current_bid : ℤ) : ℤ :=
  let own := auction_own_monopoly state position
  let anyBlock := state.opponents.any (fun opp =>
    has_monopoly (insert position opp.properties) (POSITION_TO_GROUP position) &&
      (!ai.smart_blocking ||
        other_blockers state.opponents opp position (POSITION_TO_GROUP position) == 0))
  let m := auction_ceiling ai state.my_state ((PROPERTY_PRICES position).getD 100)
    own (!own && anyBlock)
  if m ≤ current_bid then 0 else min (current_bid + 10) m

/-- C3: for pairwise-disjoint ownership (a well-formed snapshot),
get_auction_bid is exactly the claim's computation — base ceiling of 5%
over face price (100 for untabulated positions), times 1.5 on own monopoly
completion, otherwise times 1.3 exactly when an opponent would complete the
group and the bidder is the sole blocker, clamped by the debt constraint,
passing when the ceiling does not beat the current bid and otherwise
bidding current + 10 capped at the ceiling; the calibration scenarios hold:
a player with cash 500 owning 16 and 18 bids 110 on position 19 over a
current bid of 100, and passes over a current bid of 400. -/
theorem get_auction_bid_matches_claim :
    ∀ (state : GameState) (position : ℕ) (current_bid : ℤ),
      ((state.my_state :: state.opponents).Pairwise
        (fun a b => Disjoint a.properties b.properties)) →
      (get_auction_bid defaultAI state position current_bid =
        get_auction_bid_claim defaultAI state position current_bid) ∧
      get_auction_bid defaultAI
        ⟨⟨"me", 500, {16, 18}, 0, false, ∅, []⟩, [], "me", 0, 32, 12⟩ 19 100 = 110 ∧
      get_auction_bid defaultAI
        ⟨⟨"me", 500, {16, 18}, 0, false, ∅, []⟩, [], "me", 0, 32, 12⟩ 19 400 = 0 := by
  intro state position current_bid hd
  refine ⟨?_, by decide, by decide⟩
  simp only [get_auction_bid, get_auction_bid_claim, auction_max_bid]
  rw [auction_block_eq_any defaultAI state position hd]

/-- C3 witness: the program bid and the claim bid agree on the calibration
state. -/
theorem get_auction_bid_matches_claim_example :
    get_auction_bid defaultAI
      ⟨⟨"me", 500, {16, 18}, 0, false, ∅, []⟩, [], "me", 0, 32, 12⟩ 19 100 =
    get_auction_bid_claim defaultAI
      ⟨⟨"me", 500, {16, 18}, 0, false, ∅, []⟩, [], "me", 0, 32, 12⟩ 19 100 :=
  (get_auction_bid_matches_claim
    ⟨⟨"me", 500, {16, 18}, 0, false, ∅, []⟩, [], "me", 0, 32, 12⟩ 19 100 (by decide)).1

/-- C4: every trade offer emitted by generate_trade_offers is a 1-for-1
property swap from the acting player; its cash terms balance exactly the
face-price difference of the two properties, the side giving the cheaper
property paying the difference (at most one cash term is nonzero); and its
mirror (properties, cash and parties swapped) passes evaluate_trade from
the acting player's perspective. -/
theorem generate_trade_offers_shape :
    ∀ (ai : StrategicAI) (state : GameState) (offer : TradeOffer),
      offer ∈ generate_trade_offers ai state →
      ∃ a b : ℕ,
        offer.properties_offered = {a} ∧
        offer.properties_requested = {b} ∧
        offer.from_player = state.my_state.player_id ∧
        offer.cash_offered =
          max ((((PROPERTY_PRICES b).getD 0 : ℕ) : ℤ) -
            (((PROPERTY_PRICES a).getD 0 : ℕ) : ℤ)) 0 ∧
        offer.cash_requested =
          max ((((PROPERTY_PRICES a).getD 0 : ℕ) : ℤ) -
            (((PROPERTY_PRICES b).getD 0 : ℕ) : ℤ)) 0 ∧
        evaluate_trade ai state (mirror_offer offer) = true := by
  intro ai state offer hmem
  simp only [generate_trade_offers] at hmem
  rw [List.mem_flatMap] at hmem
  obtain ⟨group, -, hmem⟩ := hmem
  split at hmem
  · exact absurd hmem (by simp)
  · rw [List.mem_flatMap] at hmem
    obtain ⟨needed_pos, -, hmem⟩ := hmem
    rw [List.mem_flatMap] at hmem
    obtain ⟨opp, -, hmem⟩ := hmem
    split at hmem
    · rw [List.mem_flatMap] at hmem
      obtain ⟨their_group, -, hmem⟩ := hmem
      split at hmem
      · split at hmem
        · exact absurd hmem (by simp)
        · simp only [trade_offer_candidate] at hmem
          split at hmem
          · rename_i tn0 rest hmatch hdiff
            split at hmem
            · rename_i heval
              rw [List.mem_singleton] at hmem
              subst hmem
              refine ⟨tn0, needed_pos, rfl, rfl, rfl, ?_, ?_, heval⟩
              · rw [max_eq_left (le_of_lt hdiff)]
              · rw [max_eq_right (show (((PROPERTY_PRICES tn0).getD 0 : ℕ) : ℤ) -
                  (((PROPERTY_PRICES needed_pos).getD 0 : ℕ) : ℤ) ≤ 0 by omega)]
            · exact absurd hmem (by simp)
          · rename_i tn0 rest hmatch hdiff
            split at hmem
            · rename_i heval
              rw [List.mem_singleton] at hmem
              subst hmem
              refine ⟨tn0, needed_pos, rfl, rfl, rfl, ?_, ?_, heval⟩
              · rw [max_eq_right (show (((PROPERTY_PRICES needed_pos).getD 0 : ℕ) : ℤ) -
                  (((PROPERTY_PRICES tn0).getD 0 : ℕ) : ℤ) ≤ 0 by omega)]
              · rw [max_eq_left (show (0 : ℤ) ≤ (((PROPERTY_PRICES tn0).getD 0 : ℕ) : ℤ) -
                  (((PROPERTY_PRICES needed_pos).getD 0 : ℕ) : ℤ) by omega)]
                show -((((PROPERTY_PRICES needed_pos).getD 0 : ℕ) : ℤ) -
                  (((PROPERTY_PRICES tn0).getD 0 : ℕ) : ℤ)) =
                  (((PROPERTY_PRICES tn0).getD 0 : ℕ) : ℤ) -
                  (((PROPERTY_PRICES needed_pos).getD 0 : ℕ) : ℤ)
                ring
            · exact absurd hmem (by simp)
      · exact absurd hmem (by simp)
    · exact absurd hmem (by simp)

/-- C4 witness: the concrete orange-group offer emitted for a player owning
16 against an opponent owning 19, with the cheaper-side cash balance 20. -/
theorem generate_trade_offers_shape_example :
    ∃ a b : ℕ,
      (⟨"me", "opp", {16}, {19}, 20, 0⟩ : TradeOffer).properties_offered = {a} ∧
      (⟨"me", "opp", {16}, {19}, 20, 0⟩ : TradeOffer).properties_requested = {b} ∧
      (⟨"me", "opp", {16}, {19}, 20, 0⟩ : TradeOffer).from_player =
        (⟨⟨"me", 300, {16}, 0, false, ∅, []⟩,
          [⟨"opp", 300, {19}, 0, false, ∅, []⟩], "me", 0, 32, 12⟩ :
            GameState).my_state.player_id ∧
      (⟨"me", "opp", {16}, {19}, 20, 0⟩ : TradeOffer).cash_offered =
        max ((((PROPERTY_PRICES b).getD 0 : ℕ) : ℤ) -
          (((PROPERTY_PRICES a).getD 0 : ℕ) : ℤ)) 0 ∧
      (⟨"me", "opp", {16}, {19}, 20, 0⟩ : TradeOffer).cash_requested =
        max ((((PROPERTY_PRICES a).getD 0 : ℕ) : ℤ) -
          (((PROPERTY_PRICES b).getD 0 : ℕ) : ℤ)) 0 ∧
      evaluate_trade defaultAI
        ⟨⟨"me", 300, {16}, 0, false, ∅, []⟩,
          [⟨"opp", 300, {19}, 0, false, ∅, []⟩], "me", 0, 32, 12⟩
        (mirror_offer ⟨"me", "opp", {16}, {19}, 20, 0⟩) = true :=
  generate_trade_offers_shape defaultAI
    ⟨⟨"me", 300, {16}, 0, false, ∅, []⟩,
      [⟨"opp", 300, {19}, 0, false, ∅, []⟩], "me", 0, 32, 12⟩
    ⟨"me", "opp", {16}, {19}, 20, 0⟩ (by decide)

/-- The mortgage sort key is transitive. -/
theorem candLE_trans :
    ∀ a b c : MortgageCand, candLE a b = true → candLE b c = true →
      candLE a c = true := by
  intro a b c hab hbc
  simp only [candLE, Bool.or_eq_true, Bool.and_eq_true, beq_iff_eq,
    decide_eq_true_eq] at hab hbc ⊢
  omega

/-- The mortgage sort key is total. -/
theorem candLE_total :
    ∀ a b : MortgageCand, (candLE a b || candLE b a) = true := by
  intro a b
  simp only [candLE, Bool.or_eq_true, Bool.and_eq_true, beq_iff_eq,
    decide_eq_true_eq]
  omega

/-- The greedy mortgage walk always returns a prefix of its input. -/
theorem mortgage_greedy_take :
    ∀ (l : List MortgageCand) (r n : ℤ), ∃ k, mortgage_greedy l r n = l.take k := by
  intro l
  induction l with
  | nil => exact fun r n => ⟨0, rfl⟩
  | cons c rest ih =>
    intro r n
    simp only [mortgage_greedy]
    by_cases h : r ≥ n
    · rw [if_pos h]
      exact ⟨0, rfl⟩
    · rw [if_neg h]
      obtain ⟨k, hk⟩ := ih (r + c.value) n
      refine ⟨k + 1, ?_⟩
      rw [hk]
      rfl

/-- The greedy mortgage walk either raises the target amount or exhausts
its candidate list. -/
theorem mortgage_greedy_covers :
    ∀ (l : List MortgageCand) (r n : ℤ),
      ((mortgage_greedy l r n).map (fun c => c.value)).sum + r ≥ n ∨
        mortgage_greedy l r n = l := by
  intro l
  induction l with
  | nil => exact fun r n => Or.inr rfl
  | cons c rest ih =>
    intro r n
    simp only [mortgage_greedy]
    by_cases h : r ≥ n
    · rw [if_pos h]
      left
      simpa using h
    · rw [if_neg h]
      rcases ih (r + c.value) n with hsum | hall
      · left
        simp only [List.map_cons, List.sum_cons]
        omega
      · right
        rw [hall]

/-- C9: whenever get_mortgage_decision returns normally (its sort raises a
TypeError, modeled as none, exactly when a group-less candidate's None key
meets a grouped candidate's bool key), the candidates it considered are
exactly the owned, unmortgaged, house-free positions, annotated with their
half-price mortgage value; the returned list is the positions of a prefix
of the candidates sorted ascending by the pair (is-monopoly, group
quality); and the selected values reach the target unless every candidate
is selected. -/
theorem get_mortgage_decision_greedy :
    ∀ (state : GameState) (amount_needed : ℤ) (result : List ℕ),
      get_mortgage_decision state amount_needed = some result →
      (∀ pos : ℕ,
        (∃ c ∈ mortgage_candidates state.my_state, c.position = pos) ↔
          (pos ∈ state.my_state.properties ∧ pos ∉ state.my_state.mortgaged ∧
            getHouses state.my_state pos = 0)) ∧
      (∀ c ∈ mortgage_candidates state.my_state,
        c.value = ((((PROPERTY_PRICES c.position).getD 0) / 2 : ℕ) : ℤ)) ∧
      ((mortgage_candidates state.my_state).mergeSort candLE).Pairwise
        (fun a b => candLE a b = true) ∧
      (∃ k, result =
        ((((mortgage_candidates state.my_state).mergeSort candLE).take k).map
          (fun c => c.position))) ∧
      (((mortgage_greedy ((mortgage_candidates state.my_state).mergeSort candLE)
          0 amount_needed).map (fun c => c.value)).sum ≥ amount_needed ∨
        result =
          (((mortgage_candidates state.my_state).mergeSort candLE).map
            (fun c => c.position))) := by
  intro state amount_needed result hres
  simp only [get_mortgage_decision] at hres
  split at hres
  · exact absurd hres (by simp)
  · rw [Option.some.injEq] at hres
    refine ⟨?_, ?_, ?_, ?_, ?_⟩
    · intro pos
      constructor
      · rintro ⟨c, hc, hcpos⟩
        simp only [mortgage_candidates, List.mem_map, List.mem_filter] at hc
        obtain ⟨p, ⟨hp1, hp2⟩, hceq⟩ := hc
        rw [Finset.mem_sort] at hp1
        rw [Bool.and_eq_true, Bool.not_eq_true', decide_eq_false_iff_not, beq_iff_eq] at hp2
        have hpp : p = pos := by
          rw [← hcpos, ← hceq]
        subst hpp
        exact ⟨hp1, hp2.1, hp2.2⟩
      · rintro ⟨h1, h2, h3⟩
        refine ⟨⟨pos, ((((PROPERTY_PRICES pos).getD 0) / 2 : ℕ) : ℤ),
          (match POSITION_TO_GROUP pos with
           | some g => some (has_monopoly state.my_state.properties (some g))
           | none => none),
          (match POSITION_TO_GROUP pos with
           | some g => (GROUP_QUALITY g).getD 100
           | none => 0)⟩, ?_, rfl⟩
        simp only [mortgage_candidates, List.mem_map, List.mem_filter]
        refine ⟨pos, ⟨?_, ?_⟩, rfl⟩
        · rw [Finset.mem_sort]
          exact h1
        · rw [Bool.and_eq_true, Bool.not_eq_true', decide_eq_false_iff_not, beq_iff_eq]
          exact ⟨h2, h3⟩
    · intro c hc
      simp only [mortgage_candidates, List.mem_map] at hc
      obtain ⟨p, -, hceq⟩ := hc
      rw [← hceq]
    · exact List.sorted_mergeSort candLE_trans candLE_total
        (mortgage_candidates state.my_state)
    · obtain ⟨k, hk⟩ := mortgage_greedy_take
        ((mortgage_candidates state.my_state).mergeSort candLE) 0 amount_needed
      refine ⟨k, ?_⟩
      rw [← hres, hk]
    · rcases mortgage_greedy_covers
        ((mortgage_candidates state.my_state).mergeSort candLE) 0 amount_needed
        with h | h
      · left
        omega
      · right
        rw [← hres, h]

/-- C6 witness: the building-priority equation instantiated on a concrete
orange-plus-brown portfolio. -/
theorem should_build_house_iff_example :
    get_building_priority defaultAI
      ⟨⟨"me", 1000, {1, 3, 16, 18, 19}, 0, false, ∅, []⟩, [], "me", 0, 32, 12⟩ =
      priority_groups.flatMap (fun g =>
        ((GROUP_PROPERTIES g).getD []).filter
          (fun pos => should_build_house defaultAI
            ⟨⟨"me", 1000, {1, 3, 16, 18, 19}, 0, false, ∅, []⟩, [], "me", 0, 32, 12⟩ pos)) :=
  (should_build_house_iff
    ⟨⟨"me", 1000, {1, 3, 16, 18, 19}, 0, false, ∅, []⟩, [], "me", 0, 32, 12⟩ 1).2

/-- C9 witness: a player owning only position 6 mortgages it — the program
returns normally and the result is a prefix of the sorted candidates. -/
theorem get_mortgage_decision_greedy_example :
    ∃ k, ([6] : List ℕ) =
      ((((mortgage_candidates
          (⟨"me", 0, {6}, 0, false, ∅, []⟩ : PlayerState)).mergeSort candLE).take k).map
        (fun c => c.position)) :=
  (get_mortgage_decision_greedy
    ⟨⟨"me", 0, {6}, 0, false, ∅, []⟩, [], "me", 0, 32, 12⟩ 100 [6] (by
      have hcands : mortgage_candidates (⟨"me", 0, {6}, 0, false, ∅, []⟩ : PlayerState) =
          [⟨6, 50, some false, 95⟩] := by
        simp [mortgage_candidates, Finset.sort_singleton, getHouses, alookup, slookup,
          POSITION_TO_GROUP, POSITION_TO_GROUP_LIST, PROPERTY_PRICES, PROPERTY_PRICES_LIST,
          GROUP_QUALITY, GROUP_QUALITY_LIST, has_monopoly, get_group_properties,
          GROUP_PROPERTIES, GROUP_PROPERTIES_LIST, List.find?]
      simp [get_mortgage_decision, hcands, mortgage_sort_raises,
        List.mergeSort_singleton, mortgage_greedy])).2.2.2.1

/-- C10 witness: an unknown string group id is vacuously a monopoly, and on
a concrete state the blocking scan at group-less position 2 yields the first
opponent. -/
theorem has_monopoly_unknown_group_vacuous_example :
    has_monopoly (∅ : Finset ℕ) (some ("zebra")) = true ∧
    ([(⟨"opp", 0, ∅, 0, false, ∅, []⟩ : PlayerState)].find? (fun opp =>
        has_monopoly (insert 2 opp.properties) (POSITION_TO_GROUP 2)) =
      ([(⟨"opp", 0, ∅, 0, false, ∅, []⟩ : PlayerState)]).head?) :=
  ⟨has_monopoly_unknown_group_vacuous.1 ∅ (some ("zebra"))
      (by intro s hs; cases hs; rfl),
    has_monopoly_unknown_group_vacuous.2
      ⟨⟨"me", 0, ∅, 0, false, ∅, []⟩, [⟨"opp", 0, ∅, 0, false, ∅, []⟩], "me", 0, 32, 12⟩
      2 (by decide) (by decide)⟩
